import Mathlib

/-!
Verification development for the logs-volume module of the ClickHouse Grafana
datasource (`logsVolume.ts`-style module): the per-level reducer
`aggregateRawLogsVolume`, the observable pipeline `queryLogsVolume`, and the
interval resolvers `getIntervalInfo` / `getTimeFieldRoundingClause`.

Modelling conventions:
* JS numeric cells are three-valued (`number` / `null` / `undefined`); we embed
  them as the inductive `JVal` with `Int` numerals (the module only adds cell
  values and compares them with `> 0`).
* `MutableDataFrame.addField(_, startLength)` from `@grafana/data` preallocates
  the column buffer with `MISSING_VALUE = undefined`; the accumulated series
  therefore starts as `undefined` cells, not `null` cells.
* `getLogLevelFromKey` is external library code (`@grafana/data`), so the level
  classifier is abstracted as an explicit function parameter `classify`.
* The JS `Map` preserves insertion order and `Map.set` on an existing key keeps
  its position; we embed it as an association list with in-place update.
* rxjs observables are embedded by their trace semantics: the upstream channel
  is a list of `UpEvent`s processed in order; the subscriber callbacks are
  translated directly from the source, and processing stops after a terminal
  notification (at which point rxjs tears the subscription down).
* Field configs: only `displayNameFromDS` participates in the claims; the
  remaining config entries (fixed per-level colors, bar/stacking render hints)
  are constants taken from the UI theme and are display-only.
-/

/-- A JS cell value in a raw volume column: a finite number, `null`, or
`undefined` (the preallocated `MISSING_VALUE` of a `MutableDataFrame`). -/
inductive JVal where
  | num (n : Int)
  | null
  | undef
deriving DecidableEq, Repr

/-- JS truthiness-based coercion `v || 0` applied to a numeric-or-missing cell:
`null`, `undefined` and `0` all coerce to `0`. -/
def toNumOr0 : JVal → Int
  | JVal.num n => n
  | _ => 0

/-- JS comparison `v > 0` on a cell: `null > 0` and `undefined > 0` are false. -/
def gtZero : JVal → Bool
  | JVal.num n => decide (0 < n)
  | _ => false

/-- A cell that is missing (`null`/`undefined`) or carries a nonnegative
number; log-volume counts are of this shape. -/
def nonneg : JVal → Bool
  | JVal.num n => decide (0 ≤ n)
  | _ => true

/-- The point-wise accumulation step of `aggregateRawLogsVolume` (line 164):
`currentValue === null && valueToAdd === null ? null : (currentValue || 0) + (valueToAdd || 0)`. -/
def foldVal (currentValue valueToAdd : JVal) : JVal :=
  if currentValue = JVal.null ∧ valueToAdd = JVal.null then JVal.null
  else JVal.num (toNumOr0 currentValue + toNumOr0 valueToAdd)

/-- JS array read `values.get(i)`: out-of-range reads yield `undefined`. -/
def getCell (values : List JVal) (i : Nat) : JVal :=
  values.getD i JVal.undef

/-- One column (`Field` of `@grafana/data`) of a raw frame: a name and its
cell values. -/
structure FrameField where
  name : String
  values : List JVal
deriving DecidableEq, Repr

/-- A raw `DataFrame`: the list of its columns. -/
structure DataFrame where
  fields : List FrameField
deriving DecidableEq, Repr

/-- The canonical severity levels of `LogLevel` from `@grafana/data` (the
distinct enumeration values; synonym members share these values). -/
inductive LogLevel where
  | critical
  | error
  | warning
  | info
  | debug
  | trace
  | unknown
deriving DecidableEq, Repr

/-- The string value of a `LogLevel` enumeration member. -/
def levelString : LogLevel → String
  | LogLevel.critical => "critical"
  | LogLevel.error => "error"
  | LogLevel.warning => "warning"
  | LogLevel.info => "info"
  | LogLevel.debug => "debug"
  | LogLevel.trace => "trace"
  | LogLevel.unknown => "unknown"

/-- `TIME_FIELD_ALIAS` (line 263). -/
def TIME_FIELD_ALIAS : String := "time"

/-- `DEFAULT_LOGS_ALIAS` (line 264). -/
def DEFAULT_LOGS_ALIAS : String := "logs"

/-- The `displayNameFromDS` part of `getLogVolumeFieldConfig` (lines 185-189):
`oneLevelDetected && level === LogLevel.unknown ? 'logs' : level`. The color
and render-hint entries of the returned config are fixed display constants. -/
def getLogVolumeFieldConfig (level : LogLevel) (oneLevelDetected : Bool) : String :=
  if oneLevelDetected && level == LogLevel.unknown then DEFAULT_LOGS_ALIAS
  else levelString level

/-- The per-level accumulator entry of `logLevelToDataFrame`: the mutable frame
(its Time and Value columns) plus the `hasNonZeroValues` flag; the Value
column's config (its display name) is fixed at creation. -/
structure LevelAcc where
  times : List JVal
  values : List JVal
  hasNonZeroValues : Bool
  displayNameFromDS : String
deriving DecidableEq, Repr

/-- A fresh accumulator entry (lines 150-160): both columns preallocated to
`totalLength` cells of `MISSING_VALUE = undefined`, flag down, config built by
`getLogVolumeFieldConfig`. -/
def newLevelAcc (level : LogLevel) (oneLevelDetected : Bool) (totalLength : Nat) : LevelAcc :=
  { times := List.replicate totalLength JVal.undef
    values := List.replicate totalLength JVal.undef
    hasNonZeroValues := false
    displayNameFromDS := getLogVolumeFieldConfig level oneLevelDetected }

/-- The Value column after folding one raw column in (the loop of lines
161-169): point-wise `foldVal` of the accumulated cell and the incoming cell
at every row index. -/
def foldValues (accValues fieldValues : List JVal) (totalLength : Nat) : List JVal :=
  (List.range totalLength).map fun i => foldVal (getCell accValues i) (getCell fieldValues i)

/-- Folding one raw column into an accumulator entry (lines 161-169): the
Value column is updated point-wise, the Time column is rewritten from the time
field, and `hasNonZeroValues` is raised as soon as some written total is
positive. -/
def foldFieldInto (timeValues : List JVal) (totalLength : Nat) (fieldValues : List JVal)
    (acc : LevelAcc) : LevelAcc :=
  { times := (List.range totalLength).map fun i => getCell timeValues i
    values := foldValues acc.values fieldValues totalLength
    hasNonZeroValues := acc.hasNonZeroValues || (foldValues acc.values fieldValues totalLength).any gtZero
    displayNameFromDS := acc.displayNameFromDS }

/-- `Map.get` of the insertion-ordered JS `Map` embedded as an association
list. -/
def mapGet (m : List (LogLevel × LevelAcc)) (k : LogLevel) : Option LevelAcc :=
  Option.map Prod.snd (m.find? fun p => p.1 == k)

/-- `Map.set` of the insertion-ordered JS `Map`: an existing key keeps its
position, a new key is appended. -/
def mapSet (m : List (LogLevel × LevelAcc)) (k : LogLevel) (v : LevelAcc) :
    List (LogLevel × LevelAcc) :=
  match m with
  | [] => [(k, v)]
  | p :: rest => if p.1 == k then (k, v) :: rest else p :: mapSet rest k v

/-- The `levelFields.forEach` loop of lines 147-171: classify each raw column,
fetch or create its level's accumulator entry, fold the column in, and store
the entry back. -/
def processFields (classify : String → LogLevel) (oneLevelDetected : Bool)
    (timeValues : List JVal) (totalLength : Nat) :
    List FrameField → List (LogLevel × LevelAcc) → List (LogLevel × LevelAcc)
  | [], m => m
  | f :: rest, m =>
    processFields classify oneLevelDetected timeValues totalLength rest
      (mapSet m (classify f.name)
        (foldFieldInto timeValues totalLength f.values
          ((mapGet m (classify f.name)).getD
            (newLevelAcc (classify f.name) oneLevelDetected totalLength))))

/-- The non-time part of the lodash `partition` on line 129: all columns whose
name differs from `TIME_FIELD_ALIAS`. -/
def levelFieldsOf (frame : DataFrame) : List FrameField :=
  frame.fields.filter fun f => !(f.name == TIME_FIELD_ALIAS)

/-- `oneLevelDetected` (line 134): exactly one non-time column and it carries
the generic logs alias. -/
def oneLevelDetectedOf (frame : DataFrame) : Bool :=
  match levelFieldsOf frame with
  | [f] => f.name == DEFAULT_LOGS_ALIAS
  | _ => false

/-- The fully built `logLevelToDataFrame` map for a single raw frame: empty
when the frame has no time column (line 130), otherwise the result of running
the fold loop over all non-time columns starting from the empty map. -/
def buildLevelMap (classify : String → LogLevel) (frame : DataFrame) :
    List (LogLevel × LevelAcc) :=
  match (frame.fields.filter fun f => f.name == TIME_FIELD_ALIAS).head? with
  | none => []
  | some timeField =>
    processFields classify (oneLevelDetectedOf frame) timeField.values
      timeField.values.length (levelFieldsOf frame) []

/-- Provenance metadata attached to the first output frame by
`queryLogsVolume` (lines 77-84): the echo of the query targets and the
absolute time range in milliseconds. -/
structure FrameMeta where
  targets : List String
  absoluteFrom : Int
  absoluteTo : Int
deriving DecidableEq, Repr

/-- One emitted output series: the Time and Value columns of the per-level
`MutableDataFrame` plus its display name; `meta` is set only on the first
frame of a Done publication. -/
structure OutputFrame where
  times : List JVal
  values : List JVal
  displayNameFromDS : String
  meta : Option FrameMeta := none
deriving DecidableEq, Repr

/-- Promotion of a surviving map entry to an output frame (lines 174-179). -/
def toOutputFrame (p : LogLevel × LevelAcc) : OutputFrame :=
  { times := p.2.times
    values := p.2.values
    displayNameFromDS := p.2.displayNameFromDS
    meta := none }

/-- `aggregateRawLogsVolume` (lines 124-180): soft-fails to `[]` unless given
exactly one frame with a time column; otherwise folds the non-time columns by
canonical level and keeps, in first-seen order, the levels whose flag is up. -/
def aggregateRawLogsVolume (classify : String → LogLevel) (rawLogsVolume : List DataFrame) :
    List OutputFrame :=
  match rawLogsVolume with
  | [frame] => ((buildLevelMap classify frame).filter fun p => p.2.hasNonZeroValues).map toOutputFrame
  | _ => []

/-- The caller-supplied options of `queryLogsVolume`: query targets (kept
opaque) and the absolute range. -/
structure VolumeOptions where
  targets : List String
  rangeFrom : Int
  rangeTo : Int
deriving DecidableEq, Repr

/-- Attachment of the provenance metadata to the first aggregated frame
(lines 77-84). -/
def attachMeta (options : VolumeOptions) : List OutputFrame → List OutputFrame
  | [] => []
  | f :: rest => { f with meta := some ⟨options.targets, options.rangeFrom, options.rangeTo⟩ } :: rest

/-- A `DataQueryResponse` batch delivered by the upstream channel: an optional
embedded error (modelled as an opaque string) and a list of frames
(`toDataFrame` is the identity on already-shaped frames). -/
structure DQResponse where
  error : Option String
  data : List DataFrame
deriving DecidableEq, Repr

/-- One upstream notification: a delivered batch, an upstream error, or
completion. -/
inductive UpEvent where
  | next (resp : DQResponse)
  | error (e : String)
  | complete
deriving DecidableEq, Repr

/-- One publication on the pipeline's own channel: `loading` carries state
Loading with empty data; `done` carries state Done with the aggregated
frames; `errorOut` carries state Error with the error and its (always empty)
data payload. -/
inductive OutMsg where
  | loading
  | done (data : List OutputFrame)
  | errorOut (e : String) (data : List OutputFrame)
deriving DecidableEq, Repr

/-- Whether a publication is terminal (Done or Error) rather than Loading. -/
def isTerminalMsg : OutMsg → Bool
  | OutMsg.loading => false
  | _ => true

/-- The status of the observer after a run: still running, completed
(`observer.complete()` was called), or errored (`observer.error(e)` was
called). -/
inductive TermStatus where
  | running
  | completed
  | errored (e : String)
deriving DecidableEq, Repr

/-- Trace semantics of the subscriber of `queryLogsVolume` (lines 74-113):
process upstream notifications in order against the accumulated
`rawLogsVolume`; a batch with an embedded error publishes Error with empty
data and terminates (lines 92-104); an upstream error does the same (lines
105-112); completion aggregates, attaches metadata, publishes Done and
terminates (lines 75-91). After a terminal notification rxjs closes the
subscriber, so later list entries are never delivered. -/
def runEvents (classify : String → LogLevel) (options : VolumeOptions)
    (rawLogsVolume : List DataFrame) : List UpEvent → List OutMsg × TermStatus
  | [] => ([], TermStatus.running)
  | UpEvent.next resp :: rest =>
    match resp.error with
    | some e => ([OutMsg.errorOut e []], TermStatus.errored e)
    | none => runEvents classify options (rawLogsVolume ++ resp.data) rest
  | UpEvent.error e :: _ => ([OutMsg.errorOut e []], TermStatus.errored e)
  | UpEvent.complete :: _ =>
    ([OutMsg.done (attachMeta options (aggregateRawLogsVolume classify rawLogsVolume))],
      TermStatus.completed)

/-- `queryLogsVolume` (lines 58-118) as a trace function: on subscription it
immediately publishes Loading (lines 65-69) and then processes the upstream
trace with an empty accumulator. Returns the published list and the observer's
terminal status. -/
def queryLogsVolume (classify : String → LogLevel) (options : VolumeOptions)
    (events : List UpEvent) : List OutMsg × TermStatus :=
  (OutMsg.loading :: (runEvents classify options [] events).1,
    (runEvents classify options [] events).2)

/-- The producer's cleanup (lines 114-116): it unsubscribes the upstream
subscription, so the upstream handle is closed afterwards whatever its prior
state. -/
def pipelineTeardown (_upstreamSubscribed : Bool) : Bool := false

/-- Whether the upstream subscription is still open after a run: rxjs invokes
the producer's cleanup when the caller unsubscribes and after any terminal
notification, and the cleanup closes the upstream handle. -/
def upstreamOpenAfter (unsubscribed : Bool) (t : TermStatus) : Bool :=
  if unsubscribed then pipelineTeardown true
  else
    match t with
    | TermStatus.running => true
    | _ => pipelineTeardown true

/-- The first hard failure an upstream trace delivers, scanning in order: an
embedded error of a batch or an upstream error notification; `none` when the
trace completes or ends without one. -/
def firstFailure : List UpEvent → Option String
  | [] => none
  | UpEvent.next resp :: rest =>
    match resp.error with
    | some e => some e
    | none => firstFailure rest
  | UpEvent.error e :: _ => some e
  | UpEvent.complete :: _ => none

/-- The `ScopedVars` shape read by the interval resolvers: `__interval` is
used only for its truthiness (present or not), and `__interval_ms`, when
present, carries a numeric `value`. -/
structure ScopedVars where
  __interval : Bool
  __interval_ms : Option Int
deriving DecidableEq, Repr

/-- `MILLISECOND` (line 35). -/
def MILLISECOND : Int := 1

/-- `SECOND` (line 36). -/
def SECOND : Int := 1000 * MILLISECOND

/-- `MINUTE` (line 37). -/
def MINUTE : Int := 60 * SECOND

/-- `HOUR` (line 38). -/
def HOUR : Int := 60 * MINUTE

/-- `DAY` (line 39). -/
def DAY : Int := 24 * HOUR

/-- The result shape of `getIntervalInfo`: the interval label and the optional
explicit width. -/
structure IntervalInfo where
  interval : String
  intervalMs : Option Int
deriving DecidableEq, Repr

/-- `getIntervalInfo` (lines 210-236). Reading `scopedVars.__interval_ms.value`
when `__interval` is set but `__interval_ms` is absent is a JS `TypeError`;
the embedding returns `none` there and `some` of the computed record
everywhere else. -/
def getIntervalInfo (scopedVars : ScopedVars) (timespanMs : Int) : Option IntervalInfo :=
  if scopedVars.__interval then
    match scopedVars.__interval_ms with
    | none => none
    | some intervalMs =>
      if timespanMs < SECOND * 5 then some ⟨"1ms", some MILLISECOND⟩
      else if intervalMs > HOUR then some ⟨"1d", some DAY⟩
      else if intervalMs > MINUTE then some ⟨"1h", some HOUR⟩
      else if intervalMs > SECOND then some ⟨"1m", some MINUTE⟩
      else some ⟨"1s", some SECOND⟩
  else some ⟨"$__interval", none⟩

/-- The `interval` local variable of `getTimeFieldRoundingClause` (lines
243-258): `'DAY'` when no hint is present; under a hint, the sub-5-second case
only logs a diagnostic and leaves the `'DAY'` default in place, and otherwise
the same threshold ladder as `getIntervalInfo` picks the unit. `none` embeds
the `TypeError` of reading `__interval_ms.value` when it is absent. -/
def roundingIntervalName (scopedVars : ScopedVars) (timespanMs : Int) : Option String :=
  if scopedVars.__interval then
    match scopedVars.__interval_ms with
    | none => none
    | some intervalMs =>
      if timespanMs < SECOND * 5 then some "DAY"
      else if intervalMs > HOUR then some "DAY"
      else if intervalMs > MINUTE then some "HOUR"
      else if intervalMs > SECOND then some "MINUTE"
      else some "SECOND"
  else some "DAY"

/-- `getTimeFieldRoundingClause` (lines 238-261): the ClickHouse rounding
expression for the chosen unit. The TS `timeField` parameter defaults to
`'created_at'`. -/
def getTimeFieldRoundingClause (scopedVars : ScopedVars) (timespanMs : Int)
    (timeField : String) : Option String :=
  Option.map
    (fun interval => "toStartOfInterval(\"" ++ timeField ++ "\", INTERVAL 1 " ++ interval ++ ")")
    (roundingIntervalName scopedVars timespanMs)

/-! ## Helper lemmas -/

theorem getCell_mem_or_undef (l : List JVal) (i : Nat) :
    getCell l i ∈ l ∨ getCell l i = JVal.undef := by
  unfold getCell
  rw [List.getD_eq_getElem?_getD]
  cases h : l[i]? with
  | none => right; rfl
  | some v =>
    left
    obtain ⟨hlt, he⟩ := List.getElem?_eq_some_iff.mp h
    simpa [he] using he ▸ List.getElem_mem hlt

theorem nonneg_getCell (l : List JVal) (i : Nat) (h : l.all nonneg = true) :
    nonneg (getCell l i) = true := by
  rcases getCell_mem_or_undef l i with hm | he
  · exact List.all_eq_true.mp h _ hm
  · rw [he]; rfl

theorem foldVal_nonneg (a b : JVal) (ha : nonneg a = true) (hb : nonneg b = true) :
    nonneg (foldVal a b) = true := by
  cases a <;> cases b <;> simp_all [foldVal, toNumOr0, nonneg] <;> omega

theorem foldVal_gtZero (a b : JVal) (ha : gtZero a = true) (hb : nonneg b = true) :
    gtZero (foldVal a b) = true := by
  cases a <;> cases b <;> simp_all [foldVal, toNumOr0, gtZero, nonneg] <;> omega

theorem foldValues_length (a b : List JVal) (n : Nat) : (foldValues a b n).length = n := by
  simp [foldValues]

theorem getCell_foldValues (a b : List JVal) (n i : Nat) (h : i < n) :
    getCell (foldValues a b n) i = foldVal (getCell a i) (getCell b i) := by
  unfold foldValues getCell
  rw [List.getD_eq_getElem?_getD, List.getElem?_map, List.getElem?_range h]
  rfl

theorem any_gtZero_index (l : List JVal) (h : l.any gtZero = true) :
    ∃ i, i < l.length ∧ gtZero (getCell l i) = true := by
  obtain ⟨v, hv, hgt⟩ := List.any_eq_true.mp h
  obtain ⟨i, hlt, he⟩ := List.mem_iff_getElem.mp hv
  refine ⟨i, hlt, ?_⟩
  unfold getCell
  rw [List.getD_eq_getElem?_getD, List.getElem?_eq_getElem hlt]
  simpa [he] using hgt

theorem foldValues_any_gtZero (a b : List JVal) (n : Nat) (hlen : a.length = n)
    (ha : a.any gtZero = true) (hb : b.all nonneg = true) :
    (foldValues a b n).any gtZero = true := by
  obtain ⟨i, hlt, hgt⟩ := any_gtZero_index a ha
  refine List.any_eq_true.mpr ⟨foldVal (getCell a i) (getCell b i), ?_, ?_⟩
  · unfold foldValues
    exact List.mem_map.mpr ⟨i, List.mem_range.mpr (hlen ▸ hlt), rfl⟩
  · exact foldVal_gtZero _ _ hgt (nonneg_getCell b i hb)

theorem foldValues_all_nonneg (a b : List JVal) (n : Nat)
    (ha : a.all nonneg = true) (hb : b.all nonneg = true) :
    (foldValues a b n).all nonneg = true := by
  refine List.all_eq_true.mpr ?_
  intro v hv
  obtain ⟨i, _, he⟩ := List.mem_map.mp hv
  exact he ▸ foldVal_nonneg _ _ (nonneg_getCell a i ha) (nonneg_getCell b i hb)

/-- The accumulator invariant of the reducer under nonnegative inputs: full
row count, nonnegative-or-missing cells, and the flag agreeing with the
existence of a positive accumulated cell. -/
def accInv (n : Nat) (acc : LevelAcc) : Prop :=
  acc.values.length = n ∧ acc.values.all nonneg = true
    ∧ acc.hasNonZeroValues = acc.values.any gtZero

theorem accInv_newLevelAcc (lvl : LogLevel) (one : Bool) (n : Nat) :
    accInv n (newLevelAcc lvl one n) := by
  refine ⟨by simp [newLevelAcc], ?_, ?_⟩
  · refine List.all_eq_true.mpr ?_
    intro v hv
    rw [(List.mem_replicate.mp hv).2]
    rfl
  · simp only [newLevelAcc]
    rcases h : (List.replicate n JVal.undef).any gtZero with hf | ht
    · rfl
    · obtain ⟨v, hv, hgt⟩ := List.any_eq_true.mp h
      rw [(List.mem_replicate.mp hv).2] at hgt
      cases hgt

theorem accInv_foldFieldInto (tv : List JVal) (n : Nat) (fv : List JVal) (acc : LevelAcc)
    (hacc : accInv n acc) (hfv : fv.all nonneg = true) :
    accInv n (foldFieldInto tv n fv acc) := by
  obtain ⟨hlen, hnn, hflag⟩ := hacc
  refine ⟨foldValues_length _ _ _, foldValues_all_nonneg _ _ _ hnn hfv, ?_⟩
  show (acc.hasNonZeroValues || (foldValues acc.values fv n).any gtZero)
      = (foldValues acc.values fv n).any gtZero
  cases hz : acc.hasNonZeroValues with
  | false => simp
  | true =>
    rw [foldValues_any_gtZero acc.values fv n hlen (hflag ▸ hz) hfv]
    rfl

theorem mapGet_mem (m : List (LogLevel × LevelAcc)) (k : LogLevel) (v : LevelAcc)
    (h : mapGet m k = some v) : (k, v) ∈ m := by
  unfold mapGet at h
  cases hf : m.find? fun p => p.1 == k with
  | none => rw [hf] at h; cases h
  | some q =>
    rw [hf] at h
    have hk : q.1 = k := by simpa using List.find?_some hf
    have hv : q.2 = v := by simpa using h
    have : q ∈ m := List.mem_of_find?_eq_some hf
    rwa [show (k, v) = q from by rw [← hk, ← hv]]

theorem mapSet_mem (m : List (LogLevel × LevelAcc)) (k : LogLevel) (v : LevelAcc)
    (p : LogLevel × LevelAcc) (h : p ∈ mapSet m k v) : p = (k, v) ∨ p ∈ m := by
  induction m with
  | nil => simpa [mapSet] using h
  | cons q rest ih =>
    unfold mapSet at h
    by_cases hq : q.1 == k
    · rw [if_pos hq] at h
      rcases List.mem_cons.mp h with h1 | h2
      · exact Or.inl h1
      · exact Or.inr (List.mem_cons.mpr (Or.inr h2))
    · rw [if_neg hq] at h
      rcases List.mem_cons.mp h with h1 | h2
      · exact Or.inr (List.mem_cons.mpr (Or.inl h1))
      · rcases ih h2 with h3 | h4
        · exact Or.inl h3
        · exact Or.inr (List.mem_cons.mpr (Or.inr h4))

theorem processFields_inv (classify : String → LogLevel) (one : Bool) (tv : List JVal)
    (n : Nat) (fs : List FrameField) (m : List (LogLevel × LevelAcc))
    (hfs : ∀ f ∈ fs, f.values.all nonneg = true)
    (hm : ∀ p ∈ m, accInv n p.2) :
    ∀ p ∈ processFields classify one tv n fs m, accInv n p.2 := by
  induction fs generalizing m with
  | nil => exact hm
  | cons f rest ih =>
    intro p hp
    have hnew : ∀ q ∈ mapSet m (classify f.name)
        (foldFieldInto tv n f.values
          ((mapGet m (classify f.name)).getD (newLevelAcc (classify f.name) one n))),
        accInv n q.2 := by
      intro q hq
      rcases mapSet_mem _ _ _ q hq with he | hmem
      · rw [he]
        refine accInv_foldFieldInto tv n f.values _ ?_ (hfs f (List.mem_cons.mpr (Or.inl rfl)))
        cases hg : mapGet m (classify f.name) with
        | none => exact accInv_newLevelAcc _ _ _
        | some a => simpa using hm _ (mapGet_mem _ _ _ hg)
      · exact hm q hmem
    exact ih _ (fun g hg => hfs g (List.mem_cons.mpr (Or.inr hg))) hnew p hp

theorem buildLevelMap_flag (classify : String → LogLevel) (frame : DataFrame)
    (h : ∀ f ∈ levelFieldsOf frame, f.values.all nonneg = true) :
    ∀ p ∈ buildLevelMap classify frame, p.2.hasNonZeroValues = p.2.values.any gtZero := by
  unfold buildLevelMap
  cases ht : (frame.fields.filter fun f => f.name == TIME_FIELD_ALIAS).head? with
  | none => intro p hp; cases hp
  | some tf =>
    intro p hp
    exact (processFields_inv classify (oneLevelDetectedOf frame) tf.values
      tf.values.length (levelFieldsOf frame) [] h (fun q hq => absurd hq (List.not_mem_nil q))
      p hp).2.2

theorem processFields_name (classify : String → LogLevel) (one : Bool) (tv : List JVal)
    (n : Nat) (S : LogLevel → Prop) (fs : List FrameField) (m : List (LogLevel × LevelAcc))
    (hfs : ∀ f ∈ fs, S (classify f.name))
    (hm : ∀ p ∈ m, p.2.displayNameFromDS = getLogVolumeFieldConfig p.1 one ∧ S p.1) :
    ∀ p ∈ processFields classify one tv n fs m,
      p.2.displayNameFromDS = getLogVolumeFieldConfig p.1 one ∧ S p.1 := by
  induction fs generalizing m with
  | nil => exact hm
  | cons f rest ih =>
    intro p hp
    have hnew : ∀ q ∈ mapSet m (classify f.name)
        (foldFieldInto tv n f.values
          ((mapGet m (classify f.name)).getD (newLevelAcc (classify f.name) one n))),
        q.2.displayNameFromDS = getLogVolumeFieldConfig q.1 one ∧ S q.1 := by
      intro q hq
      rcases mapSet_mem _ _ _ q hq with he | hmem
      · rw [he]
        refine ⟨?_, hfs f (List.mem_cons.mpr (Or.inl rfl))⟩
        show ((mapGet m (classify f.name)).getD
            (newLevelAcc (classify f.name) one n)).displayNameFromDS
          = getLogVolumeFieldConfig (classify f.name) one
        cases hg : mapGet m (classify f.name) with
        | none => rfl
        | some a => simpa using (hm _ (mapGet_mem _ _ _ hg)).1
      · exact hm q hmem
    exact ih _ (fun g hg => hfs g (List.mem_cons.mpr (Or.inr hg))) hnew p hp

theorem runEvents_length_le (classify : String → LogLevel) (options : VolumeOptions)
    (events : List UpEvent) :
    ∀ acc, (runEvents classify options acc events).1.length ≤ 1 := by
  induction events with
  | nil => intro acc; simp [runEvents]
  | cons ev rest ih =>
    intro acc
    cases ev with
    | next resp =>
      cases hr : resp.error with
      | none => simpa [runEvents, hr] using ih (acc ++ resp.data)
      | some e => simp [runEvents, hr]
    | error e => simp [runEvents]
    | complete => simp [runEvents]

theorem runEvents_done_complete (classify : String → LogLevel) (options : VolumeOptions)
    (events : List UpEvent) :
    ∀ acc d, OutMsg.done d ∈ (runEvents classify options acc events).1 →
      UpEvent.complete ∈ events := by
  induction events with
  | nil => intro acc d h; simp [runEvents] at h
  | cons ev rest ih =>
    intro acc d h
    cases ev with
    | next resp =>
      cases hr : resp.error with
      | none =>
        rw [show runEvents classify options acc (UpEvent.next resp :: rest)
            = runEvents classify options (acc ++ resp.data) rest from by
          simp [runEvents, hr]] at h
        exact List.mem_cons.mpr (Or.inr (ih _ d h))
      | some e => simp [runEvents, hr] at h
    | error e => simp [runEvents] at h
    | complete => exact List.mem_cons.mpr (Or.inl rfl)

theorem runEvents_take_prefix (classify : String → LogLevel) (options : VolumeOptions)
    (events : List UpEvent) :
    ∀ acc k, (runEvents classify options acc (events.take k)).1
      <+: (runEvents classify options acc events).1 := by
  induction events with
  | nil => intro acc k; simp [runEvents]
  | cons ev rest ih =>
    intro acc k
    cases k with
    | zero => exact List.nil_prefix
    | succ k' =>
      cases ev with
      | next resp =>
        cases hr : resp.error with
        | none =>
          rw [List.take_succ_cons,
            show runEvents classify options acc (UpEvent.next resp :: rest.take k')
              = runEvents classify options (acc ++ resp.data) (rest.take k') from by
             simp [runEvents, hr],
            show runEvents classify options acc (UpEvent.next resp :: rest)
              = runEvents classify options (acc ++ resp.data) rest from by
             simp [runEvents, hr]]
          exact ih _ k'
        | some e =>
          rw [List.take_succ_cons]
          simp [runEvents, hr]
      | error e =>
        rw [List.take_succ_cons]
        simp [runEvents]
      | complete =>
        rw [List.take_succ_cons]
        simp [runEvents]

theorem runEvents_firstFailure (classify : String → LogLevel) (options : VolumeOptions)
    (events : List UpEvent) (e : String) :
    ∀ acc, firstFailure events = some e →
      runEvents classify options acc events = ([OutMsg.errorOut e []], TermStatus.errored e) := by
  induction events with
  | nil => intro acc h; cases h
  | cons ev rest ih =>
    intro acc h
    cases ev with
    | next resp =>
      cases hr : resp.error with
      | none =>
        rw [show firstFailure (UpEvent.next resp :: rest) = firstFailure rest from by
          simp [firstFailure, hr]] at h
        rw [show runEvents classify options acc (UpEvent.next resp :: rest)
            = runEvents classify options (acc ++ resp.data) rest from by
          simp [runEvents, hr]]
        exact ih _ h
      | some e' =>
        have he : e' = e := by simpa [firstFailure, hr] using h
        rw [← he]
        simp [runEvents, hr]
    | error e' =>
      have he : e' = e := by simpa [firstFailure] using h
      rw [← he]
      simp [runEvents]
    | complete => simp [firstFailure] at h

/-! ## Claim theorems -/

/-- C2: folding a level column into the accumulated series is point-wise; at
every row the combine rule is `foldVal`: both sides `null` gives `null`, and
otherwise each missing value counts as 0 and the two values are summed, so a
present value plus an absent one gives the present value and two present
values give their numeric sum. -/
theorem C2_pointwise_fold (timeValues accValues fieldValues : List JVal) (acc : LevelAcc)
    (n i : Nat) (x y : Int) (h : i < n) :
    (foldFieldInto timeValues n fieldValues acc).values
        = foldValues acc.values fieldValues n
    ∧ getCell (foldValues accValues fieldValues n) i
        = foldVal (getCell accValues i) (getCell fieldValues i)
    ∧ foldVal JVal.null JVal.null = JVal.null
    ∧ foldVal (JVal.num x) JVal.null = JVal.num x
    ∧ foldVal JVal.null (JVal.num y) = JVal.num y
    ∧ foldVal (JVal.num x) (JVal.num y) = JVal.num (x + y) := by
  refine ⟨rfl, getCell_foldValues _ _ _ _ h, rfl, ?_, ?_, rfl⟩
  · simp [foldVal, toNumOr0]
  · simp [foldVal, toNumOr0]

/-- Witness for C2 at a concrete row: row 0 of folding `[null]` into an
accumulated `[num 3]` over one row. -/
theorem C2_pointwise_fold_witness :
    getCell (foldValues [JVal.num 3] [JVal.null] 1) 0 = JVal.num 3 := by
  have h := (C2_pointwise_fold [] [JVal.num 3] [JVal.null] ⟨[], [], false, ""⟩
    1 0 5 7 (by decide)).2.1
  rw [h]
  decide

/-- C3: `aggregateRawLogsVolume` soft-fails to the empty list, raising no
error, when given a raw-frame list whose length differs from 1, and also when
the single frame has no column named `time`. -/
theorem C3_soft_failure (classify : String → LogLevel) (rawFrames : List DataFrame)
    (frame : DataFrame) :
    (rawFrames.length ≠ 1 → aggregateRawLogsVolume classify rawFrames = [])
    ∧ ((∀ f ∈ frame.fields, f.name ≠ TIME_FIELD_ALIAS) →
        aggregateRawLogsVolume classify [frame] = []) := by
  constructor
  · intro hlen
    match rawFrames with
    | [] => rfl
    | [g] => exact absurd rfl hlen
    | g :: g' :: rest => rfl
  · intro hno
    have hfilter : frame.fields.filter (fun f => f.name == TIME_FIELD_ALIAS) = [] := by
      refine List.filter_eq_nil_iff.mpr ?_
      intro f hf
      simpa using hno f hf
    show ((buildLevelMap classify frame).filter fun p => p.2.hasNonZeroValues).map toOutputFrame = []
    unfold buildLevelMap
    rw [hfilter]
    rfl

/-- Witness for C3: the empty frame list and a single frame with only a
column named `other` both aggregate to the empty list. -/
theorem C3_soft_failure_witness :
    aggregateRawLogsVolume (fun _ => LogLevel.unknown) [] = []
    ∧ aggregateRawLogsVolume (fun _ => LogLevel.unknown) [⟨[⟨"other", [JVal.num 4]⟩]⟩] = [] := by
  constructor
  · exact (C3_soft_failure (fun _ => LogLevel.unknown) []
      ⟨[⟨"other", [JVal.num 4]⟩]⟩).1 (by decide)
  · exact (C3_soft_failure (fun _ => LogLevel.unknown) []
      ⟨[⟨"other", [JVal.num 4]⟩]⟩).2 (by decide)

/-- C9: the accumulation step `foldVal` is commutative, and associative under
regrouping among three columns of the same canonical level, on every cell
value (sum of present values; null both sides stays null; null plus a present
value gives the present value). -/
theorem C9_fold_comm_assoc (a b c : JVal) :
    foldVal a b = foldVal b a
    ∧ foldVal (foldVal a b) c = foldVal a (foldVal b c) := by
  constructor
  · cases a <;> cases b <;> simp [foldVal, toNumOr0] <;> omega
  · cases a <;> cases b <;> cases c <;> simp [foldVal, toNumOr0] <;> omega

/-- C6: `getIntervalInfo` applies its three rules in order, first match wins:
no interval hint gives the `$__interval` placeholder with no width; with a
hint and a span below 5000 ms the result is 1 ms regardless of the hint;
otherwise the hint is snapped by the ladder hint > 1 h gives 1 d, > 1 min
gives 1 h, > 1 s gives 1 min, else 1 s. -/
theorem C6_interval_policy (sv : ScopedVars) (ts ims : Int) :
    (sv.__interval = false → getIntervalInfo sv ts = some ⟨"$__interval", none⟩)
    ∧ (sv.__interval = true → sv.__interval_ms = some ims →
        (ts < 5000 → getIntervalInfo sv ts = some ⟨"1ms", some 1⟩)
        ∧ (5000 ≤ ts →
            getIntervalInfo sv ts
              = some (if ims > 3600000 then ⟨"1d", some 86400000⟩
                  else if ims > 60000 then ⟨"1h", some 3600000⟩
                  else if ims > 1000 then ⟨"1m", some 60000⟩
                  else ⟨"1s", some 1000⟩))) := by
  constructor
  · intro h
    simp [getIntervalInfo, h]
  · intro h hms
    constructor
    · intro hts
      have : ts < SECOND * 5 := by simp only [SECOND, MILLISECOND]; omega
      simp [getIntervalInfo, h, hms, this, MILLISECOND]
    · intro hts
      simp only [getIntervalInfo, h, if_true, hms, SECOND, MINUTE, HOUR, DAY, MILLISECOND]
      norm_num
      split_ifs <;> first | rfl | omega

/-- Witness for C6: a 2-hour hint over a 10,000,000 ms span yields the 1-day
bucket, and a sub-5-second span forces 1 ms. -/
theorem C6_interval_policy_witness :
    getIntervalInfo ⟨true, some 7200000⟩ 10000000 = some ⟨"1d", some 86400000⟩
    ∧ getIntervalInfo ⟨true, some 7200000⟩ 3000 = some ⟨"1ms", some 1⟩
    ∧ getIntervalInfo ⟨false, none⟩ 10000000 = some ⟨"$__interval", none⟩ := by
  refine ⟨?_, ?_, ?_⟩
  · have h := ((C6_interval_policy ⟨true, some 7200000⟩ 10000000 7200000).2 rfl rfl).2
      (by norm_num)
    rw [h]
    decide
  · exact ((C6_interval_policy ⟨true, some 7200000⟩ 3000 7200000).2 rfl rfl).1 (by norm_num)
  · exact (C6_interval_policy ⟨false, none⟩ 10000000 0).1 rfl

/-- C10: whenever `__interval` is set, both `getIntervalInfo` and
`getTimeFieldRoundingClause` read `__interval_ms.value` unconditionally, so
they crash (embedded as `none`) exactly when `__interval_ms` is absent; they
are total on every input if and only if `__interval_ms` carries a value
whenever `__interval` is set. -/
theorem C10_interval_ms_totality (sv : ScopedVars) (ts : Int) (tf : String) :
    (sv.__interval = true → sv.__interval_ms = none →
        getIntervalInfo sv ts = none ∧ getTimeFieldRoundingClause sv ts tf = none)
    ∧ (((getIntervalInfo sv ts).isSome ∧ (getTimeFieldRoundingClause sv ts tf).isSome)
        ↔ (sv.__interval = true → (sv.__interval_ms).isSome = true)) := by
  constructor
  · intro h hms
    constructor
    · simp [getIntervalInfo, h, hms]
    · simp [getTimeFieldRoundingClause, roundingIntervalName, h, hms]
  · cases h : sv.__interval with
    | false =>
      simp only [getIntervalInfo, getTimeFieldRoundingClause, roundingIntervalName, h]
      simp
    | true =>
      cases hms : sv.__interval_ms with
      | none =>
        simp only [getIntervalInfo, getTimeFieldRoundingClause, roundingIntervalName, h, hms]
        simp
      | some ims =>
        simp only [getIntervalInfo, getTimeFieldRoundingClause, roundingIntervalName, h, hms]
        constructor
        · intro _ _
          rfl
        · intro _
          constructor
          · split_ifs <;> rfl
          · split_ifs <;> rfl

/-- Witness for C10: with `__interval` set and `__interval_ms` absent both
resolvers crash; with it present both are defined. -/
theorem C10_interval_ms_totality_witness :
    (getIntervalInfo ⟨true, none⟩ 9000 = none
      ∧ getTimeFieldRoundingClause ⟨true, none⟩ 9000 "created_at" = none)
    ∧ ((getIntervalInfo ⟨true, some 500⟩ 9000).isSome
        ∧ (getTimeFieldRoundingClause ⟨true, some 500⟩ 9000 "created_at").isSome) := by
  constructor
  · exact (C10_interval_ms_totality ⟨true, none⟩ 9000 "created_at").1 rfl rfl
  · exact (C10_interval_ms_totality ⟨true, some 500⟩ 9000 "created_at").2.mpr (fun _ => rfl)

/-- C7: with an interval hint present and a span of at least 5000 ms, the two
resolvers agree under identical threshold boundaries: `getIntervalInfo` yields
1d, 1h, 1m, 1s exactly when `getTimeFieldRoundingClause` (at its default time
field) rounds to DAY, HOUR, MINUTE, SECOND respectively. -/
theorem C7_granularity_agreement (sv : ScopedVars) (ts ims : Int)
    (h1 : sv.__interval = true) (h2 : sv.__interval_ms = some ims) (h3 : 5000 ≤ ts) :
    (Option.map IntervalInfo.interval (getIntervalInfo sv ts) = some "1d"
      ↔ getTimeFieldRoundingClause sv ts "created_at"
          = some "toStartOfInterval(\"created_at\", INTERVAL 1 DAY)")
    ∧ (Option.map IntervalInfo.interval (getIntervalInfo sv ts) = some "1h"
      ↔ getTimeFieldRoundingClause sv ts "created_at"
          = some "toStartOfInterval(\"created_at\", INTERVAL 1 HOUR)")
    ∧ (Option.map IntervalInfo.interval (getIntervalInfo sv ts) = some "1m"
      ↔ getTimeFieldRoundingClause sv ts "created_at"
          = some "toStartOfInterval(\"created_at\", INTERVAL 1 MINUTE)")
    ∧ (Option.map IntervalInfo.interval (getIntervalInfo sv ts) = some "1s"
      ↔ getTimeFieldRoundingClause sv ts "created_at"
          = some "toStartOfInterval(\"created_at\", INTERVAL 1 SECOND)") := by
  have hlt : ¬ ts < SECOND * 5 := by simp only [SECOND, MILLISECOND]; omega
  simp only [getIntervalInfo, getTimeFieldRoundingClause, roundingIntervalName, h1, h2,
    if_true]
  rw [if_neg hlt, if_neg hlt]
  split_ifs <;> exact ⟨by decide, by decide, by decide, by decide⟩

/-- Witness for C7: a 2-hour hint over a 10,000,000 ms span gives the 1-day
chart bucket and the DAY rounding clause together. -/
theorem C7_granularity_agreement_witness :
    getTimeFieldRoundingClause ⟨true, some 7200000⟩ 10000000 "created_at"
      = some "toStartOfInterval(\"created_at\", INTERVAL 1 DAY)" :=
  ((C7_granularity_agreement ⟨true, some 7200000⟩ 10000000 7200000 rfl rfl
    (by norm_num)).1).mp (by decide)

/-- C1 counterexample: with two columns of the same canonical level holding
`+5` and `-5`, the level is emitted (the flag latched on the intermediate
total `5 > 0`) although its fully folded series is `[0]`, which has no
positive row; the claim's "only if" direction fails on such signed data. -/
theorem C1_counterexample :
    aggregateRawLogsVolume (fun _ => LogLevel.unknown)
        [⟨[⟨"time", [JVal.num 0]⟩, ⟨"a", [JVal.num 5]⟩, ⟨"b", [JVal.num (-5)]⟩]⟩]
      = [{ times := [JVal.num 0], values := [JVal.num 0],
           displayNameFromDS := "unknown", meta := none }]
    ∧ ([JVal.num 0].any gtZero) = false := by
  constructor
  · decide
  · decide

/-- C1 (amended): on a single frame whose level columns hold only
nonnegative-or-missing cells, each accumulated level's flag agrees with the
existence of a positive fully folded row, so the emitted list is exactly the
accumulated levels with a positive folded row, in first-seen order;
levels whose folded series is entirely missing-or-zero are never emitted. -/
theorem C1_positive_row_filter (classify : String → LogLevel) (frame : DataFrame)
    (hnn : ∀ f ∈ levelFieldsOf frame, f.values.all nonneg = true) :
    (∀ p ∈ buildLevelMap classify frame, p.2.hasNonZeroValues = p.2.values.any gtZero)
    ∧ aggregateRawLogsVolume classify [frame]
        = ((buildLevelMap classify frame).filter fun p => p.2.values.any gtZero).map
            toOutputFrame := by
  have hflag := buildLevelMap_flag classify frame hnn
  refine ⟨hflag, ?_⟩
  show ((buildLevelMap classify frame).filter fun p => p.2.hasNonZeroValues).map toOutputFrame
      = ((buildLevelMap classify frame).filter fun p => p.2.values.any gtZero).map toOutputFrame
  rw [List.filter_congr fun p hp => hflag p hp]

/-- Witness for C1 (amended): a frame with columns `warn = [1,0,2]` and
`warning = [0,0,1]` folding to the same level is emitted as `[1,0,3]`, and a
frame with an all-zero `trace` column is emitted as the empty list. -/
theorem C1_positive_row_filter_witness :
    aggregateRawLogsVolume (fun _ => LogLevel.warning)
        [⟨[⟨"time", [JVal.num 0, JVal.num 60000, JVal.num 120000]⟩,
           ⟨"warn", [JVal.num 1, JVal.num 0, JVal.num 2]⟩,
           ⟨"warning", [JVal.num 0, JVal.num 0, JVal.num 1]⟩]⟩]
      = ((buildLevelMap (fun _ => LogLevel.warning)
            ⟨[⟨"time", [JVal.num 0, JVal.num 60000, JVal.num 120000]⟩,
              ⟨"warn", [JVal.num 1, JVal.num 0, JVal.num 2]⟩,
              ⟨"warning", [JVal.num 0, JVal.num 0, JVal.num 1]⟩]⟩).filter
          fun p => p.2.values.any gtZero).map toOutputFrame
    ∧ aggregateRawLogsVolume (fun _ => LogLevel.trace)
        [⟨[⟨"time", [JVal.num 0, JVal.num 60000]⟩,
           ⟨"trace", [JVal.num 0, JVal.num 0]⟩]⟩] = [] := by
  constructor
  · exact (C1_positive_row_filter (fun _ => LogLevel.warning)
      ⟨[⟨"time", [JVal.num 0, JVal.num 60000, JVal.num 120000]⟩,
        ⟨"warn", [JVal.num 1, JVal.num 0, JVal.num 2]⟩,
        ⟨"warning", [JVal.num 0, JVal.num 0, JVal.num 1]⟩]⟩ (by decide)).2
  · have h := (C1_positive_row_filter (fun _ => LogLevel.trace)
      ⟨[⟨"time", [JVal.num 0, JVal.num 60000]⟩,
        ⟨"trace", [JVal.num 0, JVal.num 0]⟩]⟩ (by decide)).2
    rw [h]
    decide

/-- C8: every emitted series takes its display name from
`getLogVolumeFieldConfig` applied to its own canonical level and the frame's
`oneLevelDetected` flag; in particular, when the frame's sole non-time column
carries the generic `logs` alias and classifies to `unknown`, the emitted
series is labeled `logs`, and in every other case the label is the canonical
level's own name. -/
theorem C8_display_name (classify : String → LogLevel) (frame : DataFrame) :
    (∀ out ∈ aggregateRawLogsVolume classify [frame],
        ∃ lvl, (∃ f ∈ levelFieldsOf frame, classify f.name = lvl)
          ∧ out.displayNameFromDS = getLogVolumeFieldConfig lvl (oneLevelDetectedOf frame))
    ∧ (∀ f, levelFieldsOf frame = [f] → f.name = DEFAULT_LOGS_ALIAS →
        classify f.name = LogLevel.unknown →
        ∀ out ∈ aggregateRawLogsVolume classify [frame],
          out.displayNameFromDS = DEFAULT_LOGS_ALIAS)
    ∧ (∀ lvl oneLv, getLogVolumeFieldConfig lvl oneLv
        = if oneLv && (lvl == LogLevel.unknown) then DEFAULT_LOGS_ALIAS
          else levelString lvl) := by
  have key : ∀ out ∈ aggregateRawLogsVolume classify [frame],
      ∃ lvl, (∃ f ∈ levelFieldsOf frame, classify f.name = lvl)
        ∧ out.displayNameFromDS = getLogVolumeFieldConfig lvl (oneLevelDetectedOf frame) := by
    intro out hout
    rw [show aggregateRawLogsVolume classify [frame]
        = ((buildLevelMap classify frame).filter fun p => p.2.hasNonZeroValues).map
            toOutputFrame from rfl] at hout
    obtain ⟨p, hpf, hpe⟩ := List.mem_map.mp hout
    have hpm : p ∈ buildLevelMap classify frame := List.mem_of_mem_filter hpf
    have hq : p.2.displayNameFromDS
          = getLogVolumeFieldConfig p.1 (oneLevelDetectedOf frame)
        ∧ ∃ f ∈ levelFieldsOf frame, classify f.name = p.1 := by
      revert hpm
      unfold buildLevelMap
      cases ht : (frame.fields.filter fun f => f.name == TIME_FIELD_ALIAS).head? with
      | none => intro hpm; cases hpm
      | some tf =>
        intro hpm
        exact processFields_name classify (oneLevelDetectedOf frame) tf.values
          tf.values.length (fun lvl => ∃ f ∈ levelFieldsOf frame, classify f.name = lvl)
          (levelFieldsOf frame) [] (fun f hf => ⟨f, hf, rfl⟩)
          (fun q hq => absurd hq (List.not_mem_nil q)) p hpm
    refine ⟨p.1, hq.2, ?_⟩
    rw [← hpe]
    exact hq.1
  refine ⟨key, ?_, fun lvl oneLv => rfl⟩
  intro f hfs hname hcls out hout
  obtain ⟨lvl, ⟨g, hg, hgc⟩, hdn⟩ := key out hout
  rw [hfs] at hg
  have hgf : g = f := by simpa using hg
  have hlvl : lvl = LogLevel.unknown := by rw [← hgc, hgf, hcls]
  have hone : oneLevelDetectedOf frame = true := by
    unfold oneLevelDetectedOf
    rw [hfs]
    show (f.name == DEFAULT_LOGS_ALIAS) = true
    rw [hname]
    simp
  rw [hdn, hlvl, hone]
  rfl

/-- Witness for C8: a frame whose only value column is named `logs` and
classifies to `unknown` is emitted with display name `logs`. -/
theorem C8_display_name_witness :
    ∀ out ∈ aggregateRawLogsVolume (fun _ => LogLevel.unknown)
        [⟨[⟨"time", [JVal.num 0]⟩, ⟨"logs", [JVal.num 2]⟩]⟩],
      out.displayNameFromDS = DEFAULT_LOGS_ALIAS :=
  (C8_display_name (fun _ => LogLevel.unknown)
    ⟨[⟨"time", [JVal.num 0]⟩, ⟨"logs", [JVal.num 2]⟩]⟩).2.1
    ⟨"logs", [JVal.num 2]⟩ (by decide) rfl rfl

/-- C4: on every run of the pipeline, Loading is the first publication, so it
precedes any Done or Error; Done or Error is published at most once in total;
Done is published only if the upstream channel signaled completion; and when
the caller unsubscribes after `k` upstream notifications, the published
sequence is exactly an initial prefix of the full run's (nothing further is
published) and the upstream subscription is torn down. -/
theorem C4_lifecycle (classify : String → LogLevel) (options : VolumeOptions)
    (events : List UpEvent) (k : Nat) :
    (queryLogsVolume classify options events).1.head? = some OutMsg.loading
    ∧ (queryLogsVolume classify options events).1.countP isTerminalMsg ≤ 1
    ∧ (∀ d, OutMsg.done d ∈ (queryLogsVolume classify options events).1 →
        UpEvent.complete ∈ events)
    ∧ (queryLogsVolume classify options (events.take k)).1
        <+: (queryLogsVolume classify options events).1
    ∧ upstreamOpenAfter true (queryLogsVolume classify options (events.take k)).2 = false := by
  refine ⟨rfl, ?_, ?_, ?_, ?_⟩
  · show (OutMsg.loading :: (runEvents classify options [] events).1).countP isTerminalMsg ≤ 1
    rw [List.countP_cons_of_neg isTerminalMsg _ (by simp [isTerminalMsg])]
    calc (runEvents classify options [] events).1.countP isTerminalMsg
        ≤ (runEvents classify options [] events).1.length := List.countP_le_length _
      _ ≤ 1 := runEvents_length_le classify options events []
  · intro d hd
    rcases List.mem_cons.mp hd with h1 | h2
    · cases h1
    · exact runEvents_done_complete classify options events [] d h2
  · show OutMsg.loading :: (runEvents classify options [] (events.take k)).1
        <+: OutMsg.loading :: (runEvents classify options [] events).1
    exact List.cons_prefix_cons.mpr ⟨rfl, runEvents_take_prefix classify options events [] k⟩
  · rfl

/-- Witness for C4: with an upstream trace that delivers one empty batch and
completes, the Done publication implies the presence of the completion
notification. -/
theorem C4_lifecycle_witness :
    UpEvent.complete ∈ [UpEvent.next ⟨none, []⟩, UpEvent.complete] :=
  (C4_lifecycle (fun _ => LogLevel.unknown) ⟨[], 0, 0⟩
    [UpEvent.next ⟨none, []⟩, UpEvent.complete] 1).2.2.1 [] (by decide)

/-- C5: when the upstream trace delivers a hard failure — an upstream error
notification or a delivered batch carrying an embedded error — the pipeline
publishes exactly Loading followed by one Error state carrying that same
error with empty data (accumulated frames discarded), terminates by erroring
the observer, and never publishes Done. -/
theorem C5_error_path (classify : String → LogLevel) (options : VolumeOptions)
    (events : List UpEvent) (e : String) (h : firstFailure events = some e) :
    (queryLogsVolume classify options events).1 = [OutMsg.loading, OutMsg.errorOut e []]
    ∧ (queryLogsVolume classify options events).2 = TermStatus.errored e
    ∧ ∀ d, OutMsg.done d ∉ (queryLogsVolume classify options events).1 := by
  have hrun := runEvents_firstFailure classify options events e [] h
  refine ⟨?_, ?_, ?_⟩
  · show OutMsg.loading :: (runEvents classify options [] events).1
        = [OutMsg.loading, OutMsg.errorOut e []]
    rw [hrun]
  · show (runEvents classify options [] events).2 = TermStatus.errored e
    rw [hrun]
  · intro d hd
    have : OutMsg.done d ∈ [OutMsg.loading, OutMsg.errorOut e []] := by
      rw [show [OutMsg.loading, OutMsg.errorOut e []]
          = OutMsg.loading :: (runEvents classify options [] events).1 from by rw [hrun]]
      exact hd
    simp at this

/-- Witness for C5: a successfully delivered batch followed by a batch with an
embedded error yields exactly Loading then Error with empty data, even though
a frame had been accumulated. -/
theorem C5_error_path_witness :
    (queryLogsVolume (fun _ => LogLevel.unknown) ⟨[], 0, 0⟩
        [UpEvent.next ⟨none, [⟨[⟨"time", [JVal.num 0]⟩, ⟨"logs", [JVal.num 2]⟩]⟩]⟩,
         UpEvent.next ⟨some "boom", []⟩, UpEvent.complete]).1
      = [OutMsg.loading, OutMsg.errorOut "boom" []] :=
  (C5_error_path (fun _ => LogLevel.unknown) ⟨[], 0, 0⟩
    [UpEvent.next ⟨none, [⟨[⟨"time", [JVal.num 0]⟩, ⟨"logs", [JVal.num 2]⟩]⟩]⟩,
     UpEvent.next ⟨some "boom", []⟩, UpEvent.complete] "boom" (by decide)).1
